import Mathlib

/-!
Shallow embedding of `backlink_runner.py` (and the deduplication step of
`app.py`) from the repository `alizahid720/backlink_script`.

Pure computations (URL parsing, link filtering, deduplication, record
construction) are translated directly from the source.  Interactions with
the external browser engine (Playwright) are, as in the spec, external
collaborators: they are modelled as oracle functions passed explicitly
(`pageOf` for navigation + form interaction producing the settled page,
label lookup and click outcomes for the locator and submitter), with
`Except`/`Option` standing for raised exceptions and absent elements.
-/

/-- Whitespace characters stripped by the Python builtin `str.strip()`. -/
def pyWs (c : Char) : Bool :=
  c = ' ' || c = '\t' || c = '\n' || c = '\r' || c = '\x0b' || c = '\x0c'

/-- Embedding of the Python builtin `str.strip()` (no arguments). -/
def pyStrip (s : String) : String :=
  String.mk (((s.data.dropWhile pyWs).reverse.dropWhile pyWs).reverse)

/-- Embedding of the Python `str.rstrip("/")` used at line 240 of
`backlink_runner.py`. -/
def rstrip_slash (s : String) : String :=
  String.mk ((s.data.reverse.dropWhile (fun c => c = '/')).reverse)

/-- Embedding of the Python `str.startswith` on character lists: the second
argument is a prefix of the first. -/
def startsWithList : List Char → List Char → Bool
  | _, [] => true
  | [], _ :: _ => false
  | c :: cs, d :: ds => c = d && startsWithList cs ds

/-- Embedding of the Python `str.startswith` on strings. -/
def startsWithStr (s pre : String) : Bool :=
  startsWithList s.data pre.data

/-- Characters allowed in a URL scheme after the leading letter,
mirroring `urllib.parse.scheme_chars`. -/
def scheme_chars (c : Char) : Bool :=
  c.isAlpha || c.isDigit || c = '+' || c = '-' || c = '.'

/-- Split a character list at the first occurrence of `c`, mirroring the
Python `url.find(':')` step of `urllib.parse.urlsplit`. -/
def findSplit (c : Char) : List Char → Option (List Char × List Char)
  | [] => none
  | x :: xs =>
    if x = c then some ([], xs)
    else
      match findSplit c xs with
      | some (a, b) => some (x :: a, b)
      | none => none

/-- The two components of `urllib.parse.urlparse` that the program reads
(`scheme` and `netloc`). -/
structure UrlParts where
  scheme : String
  netloc : String
deriving DecidableEq

/-- The scheme-splitting step of `urllib.parse.urlsplit`: a scheme is
recognised when a `:` occurs, the text before it is nonempty, begins with
an ASCII letter, and continues with scheme characters; the recognised
scheme is lowercased.  Returns `(scheme, remainder)`. -/
def splitScheme (cs : List Char) : List Char × List Char :=
  match findSplit ':' cs with
  | some (c0 :: pre, post) =>
    if c0.isAlpha && pre.all scheme_chars then
      ((c0 :: pre).map Char.toLower, post)
    else ([], cs)
  | _ => ([], cs)

/-- The netloc step of `urllib.parse.urlsplit`: present only after a
leading `//`, extending to the next `/`, `?` or `#`. -/
def netlocOf : List Char → List Char
  | '/' :: '/' :: rest => rest.takeWhile (fun c => !(c = '/' || c = '?' || c = '#'))
  | _ => []

/-- Embedding of `urllib.parse.urlparse` restricted to the `scheme` and
`netloc` fields, the only fields `backlink_runner.py` reads.  The
control-character pre-stripping of recent CPython is omitted: every string
the program parses is either a browser-reported page URL or an `href`
already passed through `str.strip()`. -/
def urlparse (s : String) : UrlParts :=
  let (sch, rest) := splitScheme s.data
  ⟨String.mk sch, String.mk (netlocOf rest)⟩

/-- Embedding of the relative-URL resolution at lines 236-244 of
`backlink_runner.py`: a destination without a scheme is resolved by string
concatenation, `page.url.rstrip("/") + ("/" if not href.startswith("/")
else "") + href`; a destination with a scheme is kept as is. -/
def resolve_href (page_url href : String) : String :=
  if (urlparse href).scheme = "" then
    rstrip_slash page_url ++ (if startsWithStr href "/" then "" else "/") ++ href
  else href

/-- Embedding of the per-anchor body of the loop at lines 228-251 of
`_extract_links`: strip the raw `href`, drop empty strings, script
pseudo-protocols, fragment-only and mailto links, resolve the rest to an
absolute URL, and drop entries whose host is empty or equals the host of
the current page. -/
def filter_href (page_url current_host raw : String) : Option String :=
  let href := pyStrip raw
  if href = "" then none
  else if startsWithStr href "javascript:" || startsWithStr href "#" then none
  else if startsWithStr href "mailto:" then none
  else
    let abs_url := resolve_href page_url href
    let host := (urlparse abs_url).netloc
    if host = "" then none
    else if host = current_host then none
    else some abs_url

/-- Embedding of the order-preserving deduplication loop used at lines
76-83 (`_load_tools`) and 252-258 (`_extract_links`): keep an element only
when it has not been seen before. -/
def dedupFirstAux (seen : List String) : List String → List String
  | [] => []
  | u :: us =>
    if u ∈ seen then dedupFirstAux seen us
    else u :: dedupFirstAux (u :: seen) us

/-- Deduplicate a list of strings preserving first-seen order
(`seen = set(); ...` loop in the source). -/
def dedupFirst (us : List String) : List String :=
  dedupFirstAux [] us

/-- A settled page as `_extract_links` observes it: the URL reported by
the browser (`page.url`) and, unless `page.content()` raises, the list of
raw `href` attribute values of the anchors that carry one
(`soup.find_all("a", href=True)`). -/
structure PageSnapshot where
  url : String
  content : Option (List String)
deriving DecidableEq

/-- Embedding of `_extract_links` (lines 219-258 of `backlink_runner.py`):
on a content-retrieval failure return `[]`; otherwise filter and resolve
each anchor destination and deduplicate preserving order. -/
def extract_links (p : PageSnapshot) : List String :=
  match p.content with
  | none => []
  | some hrefs => dedupFirst (hrefs.filterMap (filter_href p.url (urlparse p.url).netloc))

/-- Embedding of the `BacklinkResult` dataclass (lines 13-18 of
`backlink_runner.py`). -/
structure BacklinkResult where
  target_url : String
  keywords : String
  tool_url : String
  backlink_url : String
deriving DecidableEq

/-- Embedding of `_run_single_tool` (lines 98-139).  The browser work —
`page.goto`, field filling, submission, the settle wait — is the external
collaborator: `pageOf` maps a tool URL to either the settled page
eventually handed to `_extract_links`, or the exception the browser
raised.  On success the records of lines 125-133 are built, one per
extracted link, carrying the target URL, keywords and tool URL. -/
def run_single_tool (pageOf : String → Except String PageSnapshot)
    (target_url keywords tool_url : String) : Except String (List BacklinkResult) :=
  match pageOf tool_url with
  | .error e => .error e
  | .ok page =>
    .ok ((extract_links page).map (fun link =>
      { target_url := target_url, keywords := keywords,
        tool_url := tool_url, backlink_url := link }))

/-- The records a single tool contributes to a run: its successful result
list, or `[]` when its iteration raised (the `except Exception: continue`
of lines 91-93). -/
def tool_records (pageOf : String → Except String PageSnapshot)
    (url keywords tool_url : String) : List BacklinkResult :=
  match run_single_tool pageOf url keywords tool_url with
  | .ok rs => rs
  | .error _ => []

/-- The loop body of `run_for_target` (lines 87-93): extend the
accumulated results on success, ignore the tool on failure. -/
def run_step (pageOf : String → Except String PageSnapshot) (url keywords : String)
    (results : List BacklinkResult) (tool : String) : List BacklinkResult :=
  match run_single_tool pageOf url keywords tool with
  | .ok tool_results => results ++ tool_results
  | .error _ => results

/-- Embedding of `run_for_target` (lines 85-94): iterate the tool catalog,
accumulating the records of the tools that succeed. -/
def run_for_target (pageOf : String → Except String PageSnapshot)
    (tools : List String) (url keywords : String) : List BacklinkResult :=
  tools.foldl (run_step pageOf url keywords) []

/-- The hardcoded `raw_tools` list of `_load_tools` (lines 39-75),
verbatim. -/
def raw_tools : List String :=
  ["https://searchenginereports.net/backlink-maker",
   "http://www.indexkings.com/",
   "https://www.backlinkr.net/",
   "http://www.imtalk.org/cmps_index.php?pageid=IMT-Website-Submitter",
   "http://sitowebinfo.com/back/",
   "https://useme.org/",
   "http://247backlinks.info/",
   "http://real-backlinks.com/en",
   "http://www.freebacklinkbuilder.net/",
   "https://smallseotools.com/backlink-maker/",
   "https://w3seo.info/backlink-maker",
   "https://sitechecker.pro/backlinks-generator/",
   "https://seo1seotools.com/",
   "https://free-backlinks.org/",
   "http://ping-my-url.net/",
   "https://freebacklinks.info/",
   "http://ping-my-url.com/beta.html",
   "http://free-backlinks.info/",
   "https://free-backlinks.net/free-backlink-generator.html",
   "http://sitowebinfo.com/back/",
   "http://buy-backlinks.info/free-backlinks/",
   "https://seo1seotools.com/free-backlink-generator.html",
   "http://freebacklinkgenerator.net/free-backlink-generator.html",
   "https://buy-backlinks.net/free-backlink-generator.html",
   "https://addurl.official.my/",
   "http://100downloads.xyz/edugov/",
   "https://smartseotools.org/backlink-maker",
   "https://sitowebinfo.com/back/",
   "http://connectionbuilder.co.uk/",
   "https://www.duplichecker.com/backlink-maker.php",
   "https://seowagon.com/backlink-maker",
   "http://bulklink.org/",
   "https://www.coderduck.com/backlink-maker",
   "https://www.xwebtools.com/backlink-generator/",
   "https://www.w3era.com/tool/backlink-maker/"]

/-- Embedding of `_load_tools` (lines 38-83): the raw list deduplicated
preserving order. -/
def load_tools : List String :=
  dedupFirst raw_tools

/-- An input or textarea element as the field-locator XPath of lines
150-166 observes it: its tag and the four attributes the query inspects
(`none` models an absent attribute, which XPath reads as the empty
string). -/
structure Element where
  tag : String
  placeholder : Option String
  name : Option String
  id : Option String
  ariaLabel : Option String
deriving DecidableEq

/-- Substring containment on character lists, mirroring the XPath
`contains` function (an empty needle is contained in everything). -/
def containsSub (needle : List Char) : List Char → Bool
  | [] => needle.isEmpty
  | c :: rest => startsWithList (c :: rest) needle || containsSub needle rest

/-- One `contains(translate(@attr, UPPER, lower), hint)` clause of the
XPath at lines 151-157: the attribute value (empty when absent) is
lowercased and tested for the hint as a substring. -/
def attr_contains_hint (attr : Option String) (kw : String) : Bool :=
  containsSub kw.data ((attr.getD "").data.map Char.toLower)

/-- Whether an element satisfies the structural XPath predicate of
`_find_best_field`: it is an input or textarea and some hint occurs in
its lowercased placeholder, name, id or aria-label. -/
def matchesStructural (kws : List String) (e : Element) : Bool :=
  (e.tag == "input" || e.tag == "textarea")
  && kws.any (fun kw =>
      attr_contains_hint e.placeholder kw || attr_contains_hint e.name kw
      || attr_contains_hint e.id kw || attr_contains_hint e.ariaLabel kw)

/-- The structural fallback query of `_find_best_field` (lines 150-166):
the first element in document order matching the combined predicate, or
`none` when the locator count is zero. -/
def structural_query (elements : List Element) (kws : List String) : Option Element :=
  (elements.filter (matchesStructural kws)).head?

/-- The accessible-label loop of `_find_best_field` (lines 143-149): for
each hint in order, `getByLabel` yields `some el` when
`page.get_by_label(re.compile(kw, re.I)).first` resolves with a nonzero
count and raises nothing, and `none` otherwise (zero count or a swallowed
exception); the first hit is returned. -/
def firstLabelHit (getByLabel : String → Option Element) : List String → Option Element
  | [] => none
  | kw :: rest =>
    match getByLabel kw with
    | some el => some el
    | none => firstLabelHit getByLabel rest

/-- Embedding of `_find_best_field` (lines 141-167): accessible-label
lookup per hint first, then the single combined structural query, then
`none`. -/
def find_best_field (getByLabel : String → Option Element)
    (elements : List Element) (keyword_variants : List String) : Option Element :=
  match firstLabelHit getByLabel keyword_variants with
  | some el => some el
  | none => structural_query elements keyword_variants

/-- The click/press outcomes of one page as `_click_submit` observes
them.  Each strategy step either completes a click (`true`) or makes no
progress (`false`, covering both a zero locator count and a swallowed
exception); `enterPress` tells whether `page.keyboard.press("Enter")`
returns without raising. -/
structure SubmitOutcomes where
  submitTypedClick : Bool
  roleClick : String → Bool
  textClick : String → Bool
  valueClick : String → Bool
  enterPress : Bool

/-- The fixed button-label priority list of `_click_submit`
(lines 170-172). -/
def button_texts : List String :=
  ["submit", "generate", "create", "make", "build", "start", "go", "check", "search", "run"]

/-- The per-label nested search of `_click_submit` (lines 182-203): for
each label try the role match, then the text match, then the
value-attribute match, clicking the first hit. -/
def try_button_texts (o : SubmitOutcomes) : List String → Bool
  | [] => false
  | txt :: rest =>
    if o.roleClick txt then true
    else if o.textClick txt then true
    else if o.valueClick txt then true
    else try_button_texts o rest

/-- Embedding of `_click_submit` (lines 169-209): the submit-typed
element first, then the labelled-button search, then the Enter key
dispatch, whose outcome is returned as the result (`return True` on
success, `return False` when the press raises). -/
def click_submit (o : SubmitOutcomes) : Bool :=
  if o.submitTypedClick then true
  else if try_button_texts o button_texts then true
  else o.enterPress

/-- The outcomes of the three teardown steps of `shutdown` (lines 29-36):
`none` when the step returns normally, `some e` when it raises `e`. -/
structure TeardownOutcomes where
  contextClose : Option String
  browserClose : Option String
  playwrightStop : Option String

/-- Run one teardown step: it is attempted (its label is recorded) and
yields its outcome. -/
def run_action (label : String) (outcome : Option String) : List String × Option String :=
  ([label], outcome)

/-- Python `try: body finally: fin` for exception propagation: both parts
run; an exception from the finalizer replaces the body result, otherwise
the body result stands. -/
def try_finally (body fin : List String × Option String) : List String × Option String :=
  (body.1 ++ fin.1,
   match fin.2 with
   | some e => some e
   | none => body.2)

/-- Embedding of `shutdown` (lines 29-36): `context.close()` inside a
`try/finally` whose finalizer closes the browser inside another
`try/finally` that stops Playwright.  The result is the list of steps
attempted and the exception, if any, that propagates to the caller. -/
def shutdown (t : TeardownOutcomes) : List String × Option String :=
  try_finally (run_action "context.close" t.contextClose)
    (try_finally (run_action "browser.close" t.browserClose)
      (run_action "playwright.stop" t.playwrightStop))

/-- Embedding of `df.drop_duplicates(subset=["backlink_url"])` at line 121
of `app.py` (pandas keeps the first occurrence per key): keep a record
only when its `backlink_url` has not been seen before. -/
def dedup_by_backlink_aux (seen : List String) : List BacklinkResult → List BacklinkResult
  | [] => []
  | r :: rs =>
    if r.backlink_url ∈ seen then dedup_by_backlink_aux seen rs
    else r :: dedup_by_backlink_aux (r.backlink_url :: seen) rs

/-- Deduplicate a record sequence by `backlink_url` only, preserving
first-seen order. -/
def drop_duplicates_backlink (rs : List BacklinkResult) : List BacklinkResult :=
  dedup_by_backlink_aux [] rs

/-! ### Helper lemmas -/

theorem mem_dedupFirstAux_iff (x : String) (l : List String) :
    ∀ seen, x ∈ dedupFirstAux seen l ↔ (x ∈ l ∧ x ∉ seen) := by
  induction l with
  | nil => intro seen; simp [dedupFirstAux]
  | cons u us ih =>
    intro seen
    by_cases h : u ∈ seen
    · rw [dedupFirstAux, if_pos h, ih seen]
      constructor
      · rintro ⟨h1, h2⟩
        exact ⟨List.mem_cons_of_mem _ h1, h2⟩
      · rintro ⟨h1, h2⟩
        rcases List.mem_cons.mp h1 with rfl | h1
        · exact absurd h h2
        · exact ⟨h1, h2⟩
    · rw [dedupFirstAux, if_neg h]
      simp only [List.mem_cons, ih (u :: seen)]
      constructor
      · rintro (rfl | ⟨h1, h2⟩)
        · exact ⟨Or.inl rfl, h⟩
        · exact ⟨Or.inr h1, fun hx => h2 (Or.inr hx)⟩
      · rintro ⟨(rfl | h1), h2⟩
        · exact Or.inl rfl
        · by_cases hxu : x = u
          · exact Or.inl hxu
          · refine Or.inr ⟨h1, ?_⟩
            rintro (hx | hx)
            · exact hxu hx
            · exact h2 hx

theorem dedupFirstAux_nodup (l : List String) :
    ∀ seen, (dedupFirstAux seen l).Nodup := by
  induction l with
  | nil => intro seen; simp [dedupFirstAux]
  | cons u us ih =>
    intro seen
    by_cases h : u ∈ seen
    · rw [dedupFirstAux, if_pos h]
      exact ih seen
    · rw [dedupFirstAux, if_neg h]
      refine List.nodup_cons.mpr ⟨?_, ih (u :: seen)⟩
      intro hu
      exact ((mem_dedupFirstAux_iff u us (u :: seen)).mp hu).2 (List.mem_cons_self u seen)

theorem dedupFirstAux_sublist (l : List String) :
    ∀ seen, (dedupFirstAux seen l).Sublist l := by
  induction l with
  | nil => intro seen; simp [dedupFirstAux]
  | cons u us ih =>
    intro seen
    by_cases h : u ∈ seen
    · rw [dedupFirstAux, if_pos h]
      exact (ih seen).cons u
    · rw [dedupFirstAux, if_neg h]
      exact (ih (u :: seen)).cons₂ u

theorem mem_dedupFirst_iff (x : String) (l : List String) :
    x ∈ dedupFirst l ↔ x ∈ l := by
  rw [dedupFirst, mem_dedupFirstAux_iff]
  simp

theorem filter_href_host (purl ch raw u : String)
    (h : filter_href purl ch raw = some u) :
    (urlparse u).netloc ≠ ch ∧ (urlparse u).netloc ≠ "" := by
  simp only [filter_href] at h
  split_ifs at h with h1 h2 h3 h4 h5
  injection h with h
  subst h
  exact ⟨h5, h4⟩

theorem extract_links_mem_host_ne (p : PageSnapshot) (u : String)
    (hu : u ∈ extract_links p) :
    (urlparse u).netloc ≠ (urlparse p.url).netloc := by
  rcases p with ⟨purl, content⟩
  cases content with
  | none => simp [extract_links] at hu
  | some hrefs =>
    simp only [extract_links, dedupFirst] at hu
    have hu2 := ((mem_dedupFirstAux_iff u _ []).mp hu).1
    rcases List.mem_filterMap.mp hu2 with ⟨a, _, ha⟩
    exact (filter_href_host purl _ a u ha).1

theorem run_step_eq (pageOf : String → Except String PageSnapshot) (url kw : String)
    (acc : List BacklinkResult) (t : String) :
    run_step pageOf url kw acc t = acc ++ tool_records pageOf url kw t := by
  unfold run_step tool_records
  cases run_single_tool pageOf url kw t
  · simp
  · simp

theorem run_foldl_acc (pageOf : String → Except String PageSnapshot) (url kw : String)
    (tools : List String) :
    ∀ acc : List BacklinkResult,
      tools.foldl (run_step pageOf url kw) acc
        = acc ++ (tools.map (tool_records pageOf url kw)).flatten := by
  induction tools with
  | nil => intro acc; simp
  | cons t ts ih =>
    intro acc
    rw [List.foldl_cons, ih, run_step_eq, List.map_cons, List.flatten_cons, List.append_assoc]

theorem run_for_target_eq_join (pageOf : String → Except String PageSnapshot)
    (tools : List String) (url kw : String) :
    run_for_target pageOf tools url kw = (tools.map (tool_records pageOf url kw)).flatten := by
  rw [run_for_target, run_foldl_acc, List.nil_append]

theorem tool_records_fields (pageOf : String → Except String PageSnapshot)
    (url kw t : String) (r : BacklinkResult)
    (hr : r ∈ tool_records pageOf url kw t) :
    r.target_url = url ∧ r.keywords = kw ∧ r.tool_url = t := by
  cases hp : pageOf t with
  | error e => simp [tool_records, run_single_tool, hp] at hr
  | ok page =>
    simp only [tool_records, run_single_tool, hp] at hr
    rcases List.mem_map.mp hr with ⟨link, _, rfl⟩
    exact ⟨rfl, rfl, rfl⟩

theorem tool_records_backlink_host (pageOf : String → Except String PageSnapshot)
    (url kw t : String) (r : BacklinkResult)
    (hr : r ∈ tool_records pageOf url kw t) :
    ∃ page, pageOf t = Except.ok page
      ∧ (urlparse r.backlink_url).netloc ≠ (urlparse page.url).netloc := by
  cases hp : pageOf t with
  | error e => simp [tool_records, run_single_tool, hp] at hr
  | ok page =>
    refine ⟨page, rfl, ?_⟩
    simp only [tool_records, run_single_tool, hp] at hr
    rcases List.mem_map.mp hr with ⟨link, hlink, rfl⟩
    exact extract_links_mem_host_ne page link hlink

theorem firstLabelHit_all_none (g : String → Option Element) (kws : List String)
    (h : ∀ k ∈ kws, g k = none) : firstLabelHit g kws = none := by
  induction kws with
  | nil => rfl
  | cons kw rest ih =>
    simp only [firstLabelHit, h kw (List.mem_cons_self kw rest)]
    exact ih (fun k hk => h k (List.mem_cons_of_mem kw hk))

theorem firstLabelHit_first_hit (g : String → Option Element) (el : Element)
    (pre : List String) :
    ∀ (post : List String) (kw : String), (∀ k ∈ pre, g k = none) → g kw = some el →
      firstLabelHit g (pre ++ kw :: post) = some el := by
  induction pre with
  | nil =>
    intro post kw _ hkw
    simp [firstLabelHit, hkw]
  | cons p ps ih =>
    intro post kw h hkw
    rw [List.cons_append]
    simp only [firstLabelHit, h p (List.mem_cons_self p ps)]
    exact ih post kw (fun k hk => h k (List.mem_cons_of_mem p hk)) hkw

theorem try_button_texts_eq_any (o : SubmitOutcomes) (l : List String) :
    try_button_texts o l
      = l.any (fun t => o.roleClick t || o.textClick t || o.valueClick t) := by
  induction l with
  | nil => rfl
  | cons t ts ih =>
    simp only [try_button_texts, List.any_cons, ← ih]
    by_cases h1 : o.roleClick t <;> by_cases h2 : o.textClick t <;>
      by_cases h3 : o.valueClick t <;> simp [h1, h2, h3]

theorem dedup_by_backlink_aux_idem (l : List BacklinkResult) :
    ∀ seen, dedup_by_backlink_aux seen (dedup_by_backlink_aux seen l)
      = dedup_by_backlink_aux seen l := by
  induction l with
  | nil => intro seen; rfl
  | cons r rs ih =>
    intro seen
    by_cases h : r.backlink_url ∈ seen
    · simp only [dedup_by_backlink_aux, if_pos h]
      exact ih seen
    · simp only [dedup_by_backlink_aux, if_neg h]
      rw [ih]

/-! ### Claim theorems -/

/-- C1: the Link Extractor never returns a link whose host equals the host
of the current page; concretely, on the page at `tools.example.com`
containing exactly the six listed anchors, extraction returns exactly the
one-element sequence `["https://other.com/y"]`. -/
theorem extract_links_no_same_host :
    (∀ (p : PageSnapshot) (u : String), u ∈ extract_links p →
      (urlparse u).netloc ≠ (urlparse p.url).netloc)
    ∧ extract_links ⟨"https://tools.example.com",
        some ["https://tools.example.com/x", "https://other.com/y", "#frag",
              "javascript:void(0)", "mailto:a@b.com", "/relative"]⟩
      = ["https://other.com/y"] := by
  exact ⟨extract_links_mem_host_ne, by decide⟩

/-- Witness for `extract_links_no_same_host` at a concrete page and
member link. -/
theorem extract_links_no_same_host_witness :
    (urlparse "https://other.com/y").netloc
      ≠ (urlparse "https://tools.example.com").netloc :=
  extract_links_no_same_host.1
    ⟨"https://tools.example.com", some ["https://other.com/y"]⟩
    "https://other.com/y" (by decide)

/-- C2 (code bug): the resolution step of lines 236-244 does not follow
standard relative-URL resolution; it concatenates strings, so on the page
`https://h/p/q.html` the destination `a/b` resolves to
`https://h/p/q.html/a/b` where standard rules give `https://h/p/a/b`, and
`/r` resolves to `https://h/p/q.html/r` where standard rules give
`https://h/r`. -/
theorem resolve_href_is_concatenation :
    resolve_href "https://h/p/q.html" "a/b" = "https://h/p/q.html/a/b"
    ∧ resolve_href "https://h/p/q.html" "a/b" ≠ "https://h/p/a/b"
    ∧ resolve_href "https://h/p/q.html" "/r" = "https://h/p/q.html/r"
    ∧ resolve_href "https://h/p/q.html" "/r" ≠ "https://h/r" := by
  refine ⟨by decide, by decide, by decide, by decide⟩

/-- C3: a tool whose run raises contributes no records and does not
prevent the remaining tools from being attempted (removing the failing
tool from the catalog leaves the result unchanged), and a run in which
every tool fails or produces zero records returns the empty list. -/
theorem run_for_target_isolates_failures :
    (∀ (pageOf : String → Except String PageSnapshot) (url kw : String)
      (pre post : List String) (bad e : String),
      run_single_tool pageOf url kw bad = Except.error e →
      run_for_target pageOf (pre ++ bad :: post) url kw
        = run_for_target pageOf (pre ++ post) url kw)
    ∧ (∀ (pageOf : String → Except String PageSnapshot) (tools : List String)
      (url kw : String),
      (∀ t ∈ tools, tool_records pageOf url kw t = []) →
      run_for_target pageOf tools url kw = []) := by
  constructor
  · intro pageOf url kw pre post bad e hbad
    rw [run_for_target_eq_join, run_for_target_eq_join]
    have hb : tool_records pageOf url kw bad = [] := by
      simp [tool_records, hbad]
    simp [List.map_append, hb]
  · intro pageOf tools url kw h
    rw [run_for_target_eq_join, List.flatten_eq_nil_iff]
    intro x hx
    rcases List.mem_map.mp hx with ⟨t, ht, rfl⟩
    exact h t ht

/-- Witness for `run_for_target_isolates_failures` with a catalog whose
every navigation raises. -/
theorem run_for_target_isolates_failures_witness :
    run_for_target (fun _ => Except.error "boom") ([] ++ "bad" :: ["t2"]) "u" "k"
      = run_for_target (fun _ => Except.error "boom") ([] ++ ["t2"]) "u" "k"
    ∧ run_for_target (fun _ => Except.error "boom") ["t2"] "u" "k" = [] :=
  ⟨run_for_target_isolates_failures.1 (fun _ => Except.error "boom") "u" "k"
      [] ["t2"] "bad" "boom" rfl,
   run_for_target_isolates_failures.2 (fun _ => Except.error "boom") ["t2"] "u" "k"
      (fun _ _ => rfl)⟩

/-- C4 counterexample: when the settled page reports a URL on another
host than the tool URL (the page navigated or was redirected after
`goto`), a produced record can carry a backlink whose host equals the
host of its own `tool_url` field, so the claimed invariant fails. -/
theorem backlink_host_eq_tool_host_example :
    (BacklinkResult.mk "https://t.com/" "k" "https://a.com/" "https://a.com/x")
      ∈ run_for_target
          (fun _ => Except.ok ⟨"https://b.com/", some ["https://a.com/x"]⟩)
          ["https://a.com/"] "https://t.com/" "k"
    ∧ (urlparse "https://a.com/x").netloc = (urlparse "https://a.com/").netloc := by
  exact ⟨by decide, by decide⟩

/-- C4 amended: every produced record carries a backlink whose host
differs from the host of the settled page URL it was extracted from, by
construction with no post-filtering; whenever that page URL still has the
same host as the tool URL — the page did not navigate to another host —
the backlink host therefore also differs from the host of the record
`tool_url` field. -/
theorem backlink_host_ne_settled_page_host :
    (∀ (pageOf : String → Except String PageSnapshot) (url kw t : String)
      (r : BacklinkResult),
      r ∈ tool_records pageOf url kw t →
      ∃ page, pageOf t = Except.ok page
        ∧ (urlparse r.backlink_url).netloc ≠ (urlparse page.url).netloc)
    ∧ (∀ (pageOf : String → Except String PageSnapshot) (url kw t : String)
      (page : PageSnapshot) (r : BacklinkResult),
      pageOf t = Except.ok page →
      (urlparse page.url).netloc = (urlparse t).netloc →
      r ∈ tool_records pageOf url kw t →
      (urlparse r.backlink_url).netloc ≠ (urlparse r.tool_url).netloc) := by
  constructor
  · exact tool_records_backlink_host
  · intro pageOf url kw t page r hp hhost hr
    rcases tool_records_backlink_host pageOf url kw t r hr with ⟨page2, hp2, hne⟩
    rw [hp] at hp2
    injection hp2 with hp2
    subst hp2
    have ht := (tool_records_fields pageOf url kw t r hr).2.2
    rw [ht, ← hhost]
    exact hne

/-- Witness for `backlink_host_ne_settled_page_host` at a concrete tool
whose settled page stays on the tool host. -/
theorem backlink_host_ne_settled_page_host_witness :
    (urlparse (BacklinkResult.mk "u" "k" "https://a.com/" "https://y.com/a").backlink_url).netloc
      ≠ (urlparse (BacklinkResult.mk "u" "k" "https://a.com/" "https://y.com/a").tool_url).netloc :=
  backlink_host_ne_settled_page_host.2
    (fun _ => Except.ok ⟨"https://a.com/", some ["https://y.com/a"]⟩)
    "u" "k" "https://a.com/" ⟨"https://a.com/", some ["https://y.com/a"]⟩
    (BacklinkResult.mk "u" "k" "https://a.com/" "https://y.com/a")
    rfl (by decide) (by decide)

/-- C5: order-preserving deduplication yields a duplicate-free list that
is a subsequence of the input (first-occurrence order preserved), keeps
exactly the members of the input, and counts each member exactly once;
the catalog built at initialization is the deduplicated raw list and is
itself duplicate-free.  In the pure embedding the catalog is a constant,
so it cannot be mutated during a run. -/
theorem load_tools_dedup_properties :
    (∀ l : List String,
      (dedupFirst l).Nodup
      ∧ (dedupFirst l).Sublist l
      ∧ (∀ x, x ∈ dedupFirst l ↔ x ∈ l)
      ∧ (∀ x ∈ l, (dedupFirst l).count x = 1))
    ∧ load_tools = dedupFirst raw_tools
    ∧ load_tools.Nodup := by
  have hmain : ∀ l : List String,
      (dedupFirst l).Nodup
      ∧ (dedupFirst l).Sublist l
      ∧ (∀ x, x ∈ dedupFirst l ↔ x ∈ l)
      ∧ (∀ x ∈ l, (dedupFirst l).count x = 1) := by
    intro l
    refine ⟨dedupFirstAux_nodup l [], dedupFirstAux_sublist l [],
      fun x => mem_dedupFirst_iff x l, fun x hx => ?_⟩
    exact List.count_eq_one_of_mem (dedupFirstAux_nodup l [])
      ((mem_dedupFirst_iff x l).mpr hx)
  exact ⟨hmain, rfl, (hmain raw_tools).1⟩

/-- Witness for `load_tools_dedup_properties` on a concrete list with a
duplicate. -/
theorem load_tools_dedup_properties_witness :
    (dedupFirst ["a", "b", "a"]).count "a" = 1 :=
  (load_tools_dedup_properties.1 ["a", "b", "a"]).2.2.2 "a" (by decide)

/-- C6: the Field Locator tries the accessible-label strategy per hint in
order with the first success winning; only when every label lookup fails
does it run the single combined structural query; when that also matches
nothing it returns `none`; and on a page whose only element is a
labelless input with `name="site_url"`, hints
`["url","website","site","link"]` return that input via the structural
fallback. -/
theorem find_best_field_priority :
    (∀ (g : String → Option Element) (els : List Element)
      (pre post : List String) (kw : String) (el : Element),
      (∀ k ∈ pre, g k = none) → g kw = some el →
      find_best_field g els (pre ++ kw :: post) = some el)
    ∧ (∀ (g : String → Option Element) (els : List Element) (kws : List String),
      (∀ k ∈ kws, g k = none) →
      find_best_field g els kws = structural_query els kws)
    ∧ (∀ (g : String → Option Element) (els : List Element) (kws : List String),
      (∀ k ∈ kws, g k = none) → structural_query els kws = none →
      find_best_field g els kws = none)
    ∧ find_best_field (fun _ => none)
        [⟨"input", none, some "site_url", none, none⟩]
        ["url", "website", "site", "link"]
      = some ⟨"input", none, some "site_url", none, none⟩ := by
  have h2 : ∀ (g : String → Option Element) (els : List Element) (kws : List String),
      (∀ k ∈ kws, g k = none) →
      find_best_field g els kws = structural_query els kws := by
    intro g els kws h
    unfold find_best_field
    rw [firstLabelHit_all_none g kws h]
  refine ⟨?_, h2, ?_, ?_⟩
  · intro g els pre post kw el h hkw
    unfold find_best_field
    rw [firstLabelHit_first_hit g el pre post kw h hkw]
  · intro g els kws h hsq
    rw [h2 g els kws h, hsq]
  · decide

/-- Witness for `find_best_field_priority`: with one failing hint before
a hint the label oracle resolves, the resolved element wins. -/
theorem find_best_field_priority_witness :
    find_best_field
      (fun k => if k = "url" then some (Element.mk "input" none none none none) else none)
      [] (["nope"] ++ "url" :: []) = some (Element.mk "input" none none none none) :=
  find_best_field_priority.1
    (fun k => if k = "url" then some (Element.mk "input" none none none none) else none)
    [] ["nope"] [] "url" (Element.mk "input" none none none none)
    (by decide) (by decide)

/-- C7: the Submitter returns `true` exactly when some action is taken —
the submit-typed click, a labelled-button click for some label of the
fixed priority list, or the Enter dispatch — so it returns `false` only
on total exhaustion: no click anywhere and a failing Enter dispatch; a
successful Enter dispatch alone forces `true`. -/
theorem click_submit_action_characterization :
    ∀ o : SubmitOutcomes,
      click_submit o
        = (o.submitTypedClick
          || button_texts.any (fun t => o.roleClick t || o.textClick t || o.valueClick t)
          || o.enterPress)
      ∧ (click_submit o = false ↔
          o.submitTypedClick = false
          ∧ (∀ t ∈ button_texts,
              o.roleClick t = false ∧ o.textClick t = false ∧ o.valueClick t = false)
          ∧ o.enterPress = false)
      ∧ (o.enterPress = true → click_submit o = true) := by
  intro o
  have heq : click_submit o
      = (o.submitTypedClick
        || button_texts.any (fun t => o.roleClick t || o.textClick t || o.valueClick t)
        || o.enterPress) := by
    unfold click_submit
    rw [try_button_texts_eq_any]
    by_cases h1 : o.submitTypedClick
    · simp [h1]
    · by_cases h2 : button_texts.any (fun t => o.roleClick t || o.textClick t || o.valueClick t)
      · simp [h1, h2]
      · simp [h1, h2]
  refine ⟨heq, ?_, ?_⟩
  · rw [heq]
    simp only [Bool.or_eq_false_iff, List.any_eq_false]
    constructor
    · rintro ⟨⟨ha, hany⟩, he⟩
      refine ⟨ha, fun t ht => ?_, he⟩
      have := hany t ht
      simp only [Bool.or_eq_true, not_or, Bool.not_eq_true] at this
      exact ⟨this.1.1, this.1.2, this.2⟩
    · rintro ⟨ha, hall, he⟩
      refine ⟨⟨ha, fun t ht => ?_⟩, he⟩
      have := hall t ht
      simp [this.1, this.2.1, this.2.2]
  · intro he
    rw [heq, he]
    simp

/-- Witness for `click_submit_action_characterization`: with every click
failing but the Enter dispatch succeeding, the Submitter reports an
action taken. -/
theorem click_submit_action_characterization_witness :
    click_submit
      (SubmitOutcomes.mk false (fun _ => false) (fun _ => false) (fun _ => false) true)
      = true :=
  (click_submit_action_characterization
    (SubmitOutcomes.mk false (fun _ => false) (fun _ => false) (fun _ => false) true)).2.2 rfl

/-- C8 counterexample: a failure in the first teardown step still lets
the remaining two steps run, but the exception escapes `shutdown`: it is
propagated to the caller, contradicting the claim that no teardown
failure ever is. -/
theorem shutdown_propagates_failure :
    (shutdown ⟨some "context boom", none, none⟩).2 = some "context boom"
    ∧ (shutdown ⟨some "context boom", none, none⟩).1
      = ["context.close", "browser.close", "playwright.stop"] :=
  ⟨rfl, rfl⟩

/-- C8 amended: teardown attempts all three sub-resource closes no matter
which of them fail, and `shutdown` returns without an exception exactly
when all three steps succeed; otherwise the exception of the last failing
step propagates to the caller of `shutdown` (the application layer phase
swallows it separately). -/
theorem shutdown_attempts_all_propagates_failures :
    ∀ t : TeardownOutcomes,
      (shutdown t).1 = ["context.close", "browser.close", "playwright.stop"]
      ∧ ((shutdown t).2 = none ↔
          t.contextClose = none ∧ t.browserClose = none ∧ t.playwrightStop = none)
      ∧ (shutdown t).2 = (match t.playwrightStop with
          | some e => some e
          | none => match t.browserClose with
            | some e => some e
            | none => t.contextClose) := by
  intro t
  rcases t with ⟨c, b, p⟩
  cases p <;> cases b <;> cases c <;> simp [shutdown, try_finally, run_action]

/-- C9: deduplication of records by `backlink_url` alone is idempotent:
applying it twice yields the same sequence as applying it once. -/
theorem drop_duplicates_backlink_idempotent :
    ∀ rs : List BacklinkResult,
      drop_duplicates_backlink (drop_duplicates_backlink rs)
        = drop_duplicates_backlink rs := by
  intro rs
  exact dedup_by_backlink_aux_idem rs []

/-- C10: the run result is the concatenation, in catalog order, of the
per-tool record lists of the tools that succeeded, and every record of a
tool run carries the target URL and keywords of the run and the URL of
the tool that produced it. -/
theorem run_for_target_concat_and_fields :
    (∀ (pageOf : String → Except String PageSnapshot) (tools : List String)
      (url kw : String),
      run_for_target pageOf tools url kw
        = (tools.map (tool_records pageOf url kw)).flatten)
    ∧ (∀ (pageOf : String → Except String PageSnapshot) (url kw t : String)
      (r : BacklinkResult),
      r ∈ tool_records pageOf url kw t →
      r.target_url = url ∧ r.keywords = kw ∧ r.tool_url = t) :=
  ⟨run_for_target_eq_join, tool_records_fields⟩

/-- Witness for `run_for_target_concat_and_fields` at a concrete record
produced by a concrete tool run. -/
theorem run_for_target_concat_and_fields_witness :
    (BacklinkResult.mk "u" "k" "tool" "https://y.com/a").target_url = "u"
    ∧ (BacklinkResult.mk "u" "k" "tool" "https://y.com/a").keywords = "k"
    ∧ (BacklinkResult.mk "u" "k" "tool" "https://y.com/a").tool_url = "tool" :=
  run_for_target_concat_and_fields.2
    (fun _ => Except.ok ⟨"https://x.com/", some ["https://y.com/a"]⟩)
    "u" "k" "tool" (BacklinkResult.mk "u" "k" "tool" "https://y.com/a") (by decide)
